import Mathlib

/-!
Verification development for the attestation-data parsing engine
(`scripts/parse_excel.py`): methodology registry constants, header-driven
indicator-column resolution, schema validation, formula sampling over the
first rows of the indicator sheet, category filtering, consolidation and
the CSV/JSON exporter's file-level contract.

Spreadsheet cells are modelled as `Option String` (text view, `none` =
missing/NaN) or `Option ℚ` (numeric view after `pd.to_numeric` coercion,
`none` = value that does not coerce to a number).  The program's floating
point arithmetic is modelled with exact rationals; every tolerance
involved (0.01, 0.001, the 0.8 match threshold over sample sizes of at
most five) is exactly representable and the rational comparisons agree
with the IEEE double comparisons at each point the proofs use (for the
threshold `matches >= sample_size * 0.8` this is checked case by case for
the only possible sample sizes 0..5).  File output is modelled as the
list of file names written, in write order.
-/

namespace Atestat

/-- `beginsWith pat l` : `pat` is a prefix of `l` (character lists). -/
def beginsWith : List Char → List Char → Bool
  | [], _ => true
  | _ :: _, [] => false
  | a :: as, b :: bs => a == b && beginsWith as bs

/-- `containsSeq pat l` : `pat` occurs contiguously inside `l`;
models the Python substring test `pat in s`. -/
def containsSeq (pat : List Char) : List Char → Bool
  | [] => pat.isEmpty
  | c :: cs => beginsWith pat (c :: cs) || containsSeq pat cs

/-- `hasTok s tok` : the string `tok` is a substring of `s`. -/
def hasTok (s tok : String) : Bool :=
  containsSeq tok.data s.data

/-- One character of Python `str.lower`, restricted to the alphabets the
program's column labels use: ASCII Latin and Ukrainian Cyrillic. -/
def lowerChar (c : Char) : Char :=
  if 'A' ≤ c && c ≤ 'Z' then Char.ofNat (c.toNat + 32)
  else if 'А' ≤ c && c ≤ 'Я' then Char.ofNat (c.toNat + 32)
  else if c = 'І' then 'і'
  else if c = 'Ї' then 'ї'
  else if c = 'Є' then 'є'
  else if c = 'Ґ' then 'ґ'
  else c

/-- Python `str.lower` over Latin/Ukrainian text. -/
def ukrLower (s : String) : String :=
  ⟨s.data.map lowerChar⟩

/-- Python `str.strip` on a character list (drop leading and trailing
whitespace). -/
def trimChars (l : List Char) : List Char :=
  ((l.dropWhile Char.isWhitespace).reverse.dropWhile Char.isWhitespace).reverse

/-- Python `str.strip`. -/
def pyStrip (s : String) : String :=
  ⟨trimChars s.data⟩

/-- Code-point lexicographic `≤` on character lists: models the order
Python string comparison (and hence `sorted`) uses. -/
def charListLe : List Char → List Char → Bool
  | [], _ => true
  | _ :: _, [] => false
  | a :: as, b :: bs =>
      decide (a.toNat < b.toNat) || (decide (a.toNat = b.toNat) && charListLe as bs)

/-- Code-point lexicographic `≤` on strings. -/
def strLe (a b : String) : Bool :=
  charListLe a.data b.data

/-- The order relation underlying `sorted`. -/
def strLeR : String → String → Prop :=
  fun a b => strLe a b = true

instance : DecidableRel strLeR :=
  fun a b => inferInstanceAs (Decidable (strLe a b = true))

/-- Python `sorted` on a list of strings, modelled as insertion sort by
code-point lexicographic order (on duplicate-free input every sort agrees
with Python's, since the sorted arrangement is unique). -/
def sortStrings (l : List String) : List String :=
  l.insertionSort strLeR

/-! ### Methodology registry (`AttestationDataParser` constants) -/

/-- `TOTAL_KI`: total of the weighting coefficients (54.0). -/
def TOTAL_KI : ℚ := 54.0

/-- `INDICATORS_KI`: the 37 indicator weights, in source order. -/
def INDICATORS_KI : List (String × ℚ) :=
  [("I1", 1.0), ("I2", 1.0), ("I3", 1.0), ("I4", 1.0), ("I5", 0.5), ("I6", 1.0),
   ("I7", 1.0), ("I8", 3.0), ("I9", 2.0), ("I10", 1.0), ("I11", 3.0), ("I12", 2.0),
   ("I13", 1.0), ("I14", 0.5),
   ("I15", 1.5), ("I16", 1.2), ("I17", 1.0), ("I18", 1.0), ("I19", 1.5),
   ("I20", 0.75), ("I21", 0.35), ("I22", 0.5), ("I23", 0.2),
   ("I24", 1.0), ("I25", 1.0), ("I26", 3.0), ("I27", 1.0), ("I28", 1.0),
   ("I29", 4.0), ("I30", 0.5), ("I31", 2.0),
   ("I32", 4.0), ("I33", 1.0), ("I34", 2.0), ("I35", 0.5), ("I36", 2.0), ("I37", 4.0)]

/-- `INDICATOR_BLOCKS`: the five indicator blocks, in source order. -/
def INDICATOR_BLOCKS : List (String × List String) :=
  [("Кадровий потенціал", ["I1", "I2", "I3", "I4", "I5", "I6"]),
   ("Фінансова діяльність", ["I7", "I8", "I9", "I10", "I11", "I12", "I13", "I14"]),
   ("Публікаційна активність", ["I15", "I16", "I17", "I18", "I19", "I20", "I21", "I22"]),
   ("Інтелектуальна власність", ["I23", "I24", "I25", "I26", "I27", "I28", "I29", "I30", "I31"]),
   ("Конкурсне фінансування", ["I32", "I33", "I34", "I35", "I36", "I37"])]

/-- The identifiers of the weight registry, in source order. -/
def indicatorIds : List String :=
  INDICATORS_KI.map (·.1)

/-- `sum(INDICATORS_KI.values())`. -/
def kiSum : ℚ :=
  (INDICATORS_KI.map (·.2)).sum

/-- Weight of an identifier (0 when absent; only used on registry ids). -/
def kiOf (k : String) : ℚ :=
  (INDICATORS_KI.lookup k).getD 0

/-- Sum of the weights of a block's identifier list. -/
def blockSum (ids : List String) : ℚ :=
  (ids.map kiOf).sum

/-! ### Header Resolver (`_extract_indicator_columns`) -/

/-- `re.match(r'^I(\d+)$', s)` succeeds: the Latin letter `I` followed by
one or more decimal digits and nothing else. -/
def matchIndicator (s : String) : Bool :=
  match s.data with
  | c :: ds => c == 'I' && !ds.isEmpty && ds.all Char.isDigit
  | [] => false

/-- The indicator identifier a header cell contributes: `none` for a
missing (NaN) cell and for a cell whose stripped text does not match the
indicator pattern; otherwise the stripped text itself (the code rebuilds
`I` + the captured digits, which is the matched text). -/
def cellKey (c : Option String) : Option String :=
  c.bind fun v =>
    let s := pyStrip v
    if matchIndicator s then some s else none

/-- Python `dict` insertion: overwrite the value in place when the key is
present (Python dicts are duplicate-free, so replacing the first
occurrence is replacing the only one), append otherwise. -/
def dictInsert : List (String × Nat) → String → Nat → List (String × Nat)
  | [], k, v => [(k, v)]
  | p :: d, k, v => if p.1 == k then (k, v) :: d else p :: dictInsert d k v

/-- `_extract_indicator_columns`: scan the header row left to right and
record `identifier ↦ 0-based column position` for every matching cell. -/
def extract_indicator_columns (headerRow : List (Option String)) : List (String × Nat) :=
  headerRow.enum.foldl
    (fun d p =>
      match cellKey p.2 with
      | some k => dictInsert d k p.1
      | none => d)
    []

/-- The column positions whose cell contributes identifier `k`, in row
order (specification-side view used to state the resolver's contract). -/
def keyPositions (headerRow : List (Option String)) (k : String) : List Nat :=
  headerRow.enum.filterMap
    (fun p => if cellKey p.2 = some k then some p.1 else none)

/-! ### Tables and sheet loaders -/

/-- A sheet in text view: labelled columns, rows of optional cells
(cell `j` of a row belongs to column label `j`). -/
structure RTable where
  cols : List String
  rows : List (List (Option String))
deriving DecidableEq

/-- A sheet in numeric view (the formula sampler reads its five role
columns through `pd.to_numeric(..., errors='coerce')`, so a cell is
`none` exactly when the coercion fails). -/
structure QTable where
  cols : List String
  rows : List (List (Option ℚ))

/-- Does row `r` survive the direction filter through column position `j`
(`df[df[col].isin(directions)]`): a present value that is a member of the
supplied direction list. -/
def keepRow (j : Nat) (directions : List String) (r : List (Option String)) : Bool :=
  match (r.get? j).join with
  | some v => directions.contains v
  | none => false

/-- The shared per-sheet filtering step: when the direction-label column
is present, keep the rows whose value is in `directions` (original order);
otherwise return the table unchanged (the code logs a warning). -/
def filterByDirections (df : RTable) (dirCol : String) (directions : List String) : RTable :=
  match df.cols.findIdx? (· == dirCol) with
  | some j => ⟨df.cols, df.rows.filter (keepRow j directions)⟩
  | none => df

/-- `parse_results_sheet`: mandatory sheet `Результати`, direction column
`Напрям`; raises (`KeyError`) when the sheet is absent. -/
def parse_results_sheet (sheets : List (String × RTable)) (directions : List String) :
    Except String RTable :=
  match sheets.lookup "Результати" with
  | none => .error "Вкладка не знайдена"
  | some df => .ok (filterByDirections df "Напрям" directions)

/-- `parse_detali_sheet`: optional sheet `Деталі 3.0`, direction column
`Напрям`; `none` when the sheet is absent. -/
def parse_detali_sheet (sheets : List (String × RTable)) (directions : List String) :
    Option RTable :=
  (sheets.lookup "Деталі 3.0").map (filterByDirections · "Напрям" directions)

/-- `parse_medians_sheet`: optional sheet `Мадіани`, direction column `Напрям`. -/
def parse_medians_sheet (sheets : List (String × RTable)) (directions : List String) :
    Option RTable :=
  (sheets.lookup "Мадіани").map (filterByDirections · "Напрям" directions)

/-- `parse_dynamika_sheet`: optional sheet `Динаміка`, direction column
`Науковий напрям * Рівень 0`. -/
def parse_dynamika_sheet (sheets : List (String × RTable)) (directions : List String) :
    Option RTable :=
  (sheets.lookup "Динаміка").map (filterByDirections · "Науковий напрям * Рівень 0" directions)

/-! ### Formula sampler (`_validate_formula_samples`) -/

/-- The five formula roles. -/
inductive Role
  | classification
  | expert
  | regional
  | destruction
  | final
deriving DecidableEq

/-- The resolved role columns (the source keeps the column labels). -/
structure RoleCols where
  classification_col : Option String
  expert_col : Option String
  regional_col : Option String
  destruction_col : Option String
  final_col : Option String
deriving DecidableEq

/-- The `if/elif` chain applied to one column label: the first role (in
source order) whose substring test the lower-cased label passes. -/
def roleOf (col : String) : Option Role :=
  let s := ukrLower col
  if hasTok s "класифікаційна" && hasTok s "оцінка" then some .classification
  else if hasTok s "експертна" && hasTok s "оцінка" then some .expert
  else if hasTok s "регіональний" && hasTok s "коєфіц" then some .regional
  else if hasTok s "руйнувань" || hasTok s "руйнування" then some .destruction
  else if hasTok s "атестаційна" && hasTok s "оцінка" then some .final
  else none

/-- One step of the column scan: a column that resolves to a role
overwrites that role's slot. -/
def applyRole (acc : RoleCols) (col : String) : RoleCols :=
  match roleOf col with
  | some .classification => { acc with classification_col := some col }
  | some .expert => { acc with expert_col := some col }
  | some .regional => { acc with regional_col := some col }
  | some .destruction => { acc with destruction_col := some col }
  | some .final => { acc with final_col := some col }
  | none => acc

/-- The role-column scan of `_validate_formula_samples`, over the table's
column labels in column order. -/
def findRoleCols (cols : List String) : RoleCols :=
  cols.foldl applyRole ⟨none, none, none, none, none⟩

/-- Field access by role. -/
def roleField (rc : RoleCols) : Role → Option String
  | .classification => rc.classification_col
  | .expert => rc.expert_col
  | .regional => rc.regional_col
  | .destruction => rc.destruction_col
  | .final => rc.final_col

/-- `df.iloc[idx][label]` followed by numeric coercion: the cell of row
`idx` at the (first) column carrying `label`. -/
def getCell (df : QTable) (idx : Nat) (label : String) : Option ℚ :=
  match df.rows.get? idx with
  | none => none
  | some r =>
      match df.cols.findIdx? (· == label) with
      | none => none
      | some j => (r.get? j).join

/-- One sampled row: all five role values coerce, and the recomputed
score `(K + E) * RPI * KRI` agrees with the recorded one within relative
tolerance `|A_calc - A_actual| / max(A_actual, 0.01) < 0.001`. -/
def sampleRowMatches (df : QTable) (cc ec rc dc fc : String) (idx : Nat) : Bool :=
  match getCell df idx cc, getCell df idx ec, getCell df idx rc,
      getCell df idx dc, getCell df idx fc with
  | some K, some E, some RPI, some KRI, some A =>
      decide (|(K + E) * RPI * KRI - A| / max A (1 / 100) < 1 / 1000)
  | _, _, _, _, _ => false

/-- The sampling loop `for idx in range(sample_size)` with its match
counter. -/
def countMatches (df : QTable) (cc ec rc dc fc : String) (ss : Nat) : Nat :=
  (List.range ss).foldl
    (fun m idx => if sampleRowMatches df cc ec rc dc fc idx then m + 1 else m) 0

/-- The validation record built by `validate_methodology` (the `validation`
dict).  The source interpolates the match counts into the warning text;
the model keeps the fixed message prefixes, which no claim inspects. -/
structure Validation where
  total_institutions : Nat
  total_dovidnyky : Nat
  indicators_found : List String
  indicators_missing : List String
  ki_sum_valid : Bool
  formula_valid : Bool
  errors : List String
  warnings : List String
deriving DecidableEq

/-- `_validate_formula_samples`: resolve the five role columns; when all
resolve, count matches over the first `min(5, len(df))` rows and set
`formula_valid` when `matches >= sample_size * 0.8`, else record a
warning; when any role is unresolved, record a warning only. -/
def validate_formula_samples (df : QTable) (v : Validation) : Validation :=
  match findRoleCols df.cols with
  | ⟨some cc, some ec, some rc, some dc, some fc⟩ =>
      let sample_size := min 5 df.rows.length
      let matched := countMatches df cc ec rc dc fc sample_size
      if ((sample_size : ℚ) * 0.8 ≤ (matched : ℚ)) then
        { v with formula_valid := true }
      else
        { v with warnings := v.warnings ++ ["Формула не валідується"] }
  | _ => { v with warnings := v.warnings ++ ["Не знайдено всіх колонок для валідації формули"] }

/-! ### Schema validator (`validate_methodology`) -/

/-- `validate_methodology`: build the fresh validation record, report the
found/missing indicator identifiers sorted, check the registry weight sum
against `TOTAL_KI` with absolute tolerance 0.01 (hard error on mismatch),
then fold in the formula sampler's verdict. -/
def validate_methodology (indicator_columns : List (String × Nat))
    (dovidnyky : QTable) (results : RTable) : Validation :=
  let found := (indicator_columns.map (·.1)).dedup
  let v : Validation :=
    { total_institutions := results.rows.length
      total_dovidnyky := dovidnyky.rows.length
      indicators_found := sortStrings found
      indicators_missing := sortStrings (indicatorIds.filter (fun k => !(found.contains k)))
      ki_sum_valid := false
      formula_valid := false
      errors := []
      warnings := [] }
  let v :=
    if |kiSum - TOTAL_KI| < 1 / 100 then { v with ki_sum_valid := true }
    else { v with errors := v.errors ++ ["Сума Ki не дорівнює очікуваній"] }
  validate_formula_samples dovidnyky v

/-! ### Consolidator and exporter -/

/-- The consolidated bundle (`self.consolidated_data`): the mandatory
results table and the three independently optional tables. -/
structure Consolidated where
  results : RTable
  detali : Option RTable
  medians : Option RTable
  dynamika : Option RTable
deriving DecidableEq

/-- The parser's mutable state: loaded sheets, the consolidated bundle
(`None` before `consolidate_data`), and the stored validation report
(empty before `validate_methodology` ever runs). -/
structure ParserState where
  sheets : List (String × RTable)
  consolidated_data : Option Consolidated
  validation_results : Option Validation
deriving DecidableEq

/-- `consolidate_data`: load the four sheets (results mandatory, the rest
optional), assemble the bundle and store it on the state.  It fails only
when the results sheet is absent. -/
def consolidate_data (st : ParserState) (directions : List String) :
    Except String (ParserState × Consolidated) :=
  match parse_results_sheet st.sheets directions with
  | .error e => .error e
  | .ok results =>
      let detali := parse_detali_sheet st.sheets directions
      let medians := parse_medians_sheet st.sheets directions
      let dynamika := parse_dynamika_sheet st.sheets directions
      let c : Consolidated := ⟨results, detali, medians, dynamika⟩
      .ok ({ st with consolidated_data := some c }, c)

/-- The bundle's tables that are present, with their export names, in the
source's iteration order. -/
def presentTables (c : Consolidated) : List (String × RTable) :=
  ([("results", some c.results), ("detali", c.detali),
    ("medians", c.medians), ("dynamika", c.dynamika)]).filterMap
    (fun p => p.2.map ((p.1, ·)))

/-- `export_to_csv` at file granularity: refuse (`ValueError`) when no
consolidation has run, otherwise write one CSV per present non-empty
table.  Returns the file names written. -/
def export_to_csv (st : ParserState) : Except String (List String) :=
  match st.consolidated_data with
  | none => .error "Спочатку виконайте консолідацію даних"
  | some c =>
      .ok (((presentTables c).filter (fun p => 0 < p.2.rows.length)).map
        (fun p => p.1 ++ ".csv"))

/-- The record file an optional table contributes: its file name when the
table is present and non-empty, nothing otherwise. -/
def optTableFile (o : Option RTable) (nm : String) : List String :=
  match o with
  | some t => if 0 < t.rows.length then [nm] else []
  | none => []

/-- `export_to_json` at file granularity: refuse (`ValueError`) when no
consolidation has run (the directory is created but no file written),
otherwise write `methodology.json`, the per-table record files for
present non-empty tables, and `stats_by_direction.json` when the results
table is non-empty and carries the `Напрям` column.  Returns the file
names written in write order. -/
def export_to_json (st : ParserState) : Except String (List String) :=
  match st.consolidated_data with
  | none => .error "Спочатку виконайте консолідацію даних"
  | some c =>
      .ok (["methodology.json"]
        ++ optTableFile (some c.results) "all_results.json"
        ++ optTableFile c.detali "detali.json"
        ++ optTableFile c.medians "medians.json"
        ++ optTableFile c.dynamika "dynamika.json"
        ++ (if 0 < c.results.rows.length && c.results.cols.contains "Напрям" then
              ["stats_by_direction.json"]
            else []))

/-! ### Concrete inputs used by the examples, counterexamples and witnesses -/

/-- The header row of the spec's Header Resolver example. -/
def c1row : List (Option String) :=
  [some "I1", some "foo", some "I37", some "I1*", some ""]

/-- A fresh validation record (the shape `validate_methodology` starts
from), used as the sampler's input in concrete runs. -/
def freshValidation : Validation :=
  ⟨0, 0, [], [], false, false, [], []⟩

/-- A concrete label carrying the classification-score role. -/
def ccL : String := "класифікаційна оцінка"

/-- A concrete label carrying the expert-score role. -/
def ecL : String := "експертна оцінка"

/-- A concrete label carrying the regional-coefficient role. -/
def rcL : String := "регіональний коєфіцієнт"

/-- A concrete label carrying the destruction-coefficient role. -/
def dcL : String := "коєфіцієнт руйнувань"

/-- A concrete label carrying the final attestation-score role. -/
def fcL : String := "атестаційна оцінка"

/-- Column labels of a concrete indicator-bearing sheet on which all five
formula roles resolve. -/
def roleCols5 : List String :=
  ["Назва ЗВО", ccL, ecL, rcL, dcL, fcL]

/-- Five rows on which the formula holds exactly. -/
def exA : QTable :=
  ⟨roleCols5,
   [[none, some 10, some 5, some 2, some 1, some 30],
    [none, some 7, some 3, some 1, some 1, some 10],
    [none, some 20, some 20, some 2, some 1, some 80],
    [none, some 4, some 4, some 1, some 1, some 8],
    [none, some 9, some 1, some 2, some 1, some 20]]⟩

/-- Five rows of which exactly three match: row 3 has a final score off
by far more than the tolerance and row 4 fails numeric coercion of the
classification score. -/
def exB : QTable :=
  ⟨roleCols5,
   [[none, some 10, some 5, some 2, some 1, some 30],
    [none, some 7, some 3, some 1, some 1, some 10],
    [none, some 20, some 20, some 2, some 1, some 80],
    [none, some 4, some 4, some 1, some 1, some 31],
    [none, none, some 1, some 2, some 1, some 20]]⟩

/-- An indicator-column map containing every registry identifier except
`I5`, plus the non-indicator key `I40` (positions are immaterial). -/
def c4map : List (String × Nat) :=
  ((indicatorIds.filter (fun k => k ≠ "I5")) ++ ["I40"]).enum.map (fun p => (p.2, p.1))

/-- An empty numeric table. -/
def qEmpty : QTable := ⟨[], []⟩

/-- An empty text table. -/
def rEmpty : RTable := ⟨[], []⟩

/-- The results table of the spec's category-filtering example: rows in
the directions Суспільний and Біомедичний. -/
def c5table : RTable :=
  ⟨["Назва ЗВО", "Напрям", "Група"],
   [[some "A", some "Суспільний", some "А"],
    [some "B", some "Біомедичний", some "Б"],
    [some "C", some "Суспільний", some "В"],
    [some "D", some "Біомедичний", some "А"]]⟩

/-- A loaded-sheets map holding the mandatory results sheet and an
indicator sheet. -/
def c5sheets : List (String × RTable) :=
  [("Довідники", ⟨["P1"], [[some "x"]]⟩), ("Результати", c5table)]

/-- A parser state as it stands right after `load_all_sheets`. -/
def stLoaded : ParserState :=
  ⟨c5sheets, none, none⟩

/-- A parser state holding a consolidated bundle. -/
def stConsolidated : ParserState :=
  ⟨c5sheets, some ⟨c5table, none, none, none⟩, none⟩

/-- The bundle `consolidate_data` produces from `stLoaded`. -/
def c6bundle : Consolidated :=
  ⟨filterByDirections c5table "Напрям" ["Суспільний"], none, none, none⟩

/-- The parser state after that consolidation run. -/
def c6after : ParserState :=
  { stLoaded with consolidated_data := some c6bundle }

/-! ### Dictionary lemmas for the header resolver -/

lemma lookup_cons_pos (a k : String) (b : Nat) (es : List (String × Nat)) (h : a = k) :
    ((k, b) :: es).lookup a = some b := by
  simp [List.lookup_cons, h]

lemma lookup_cons_neg (a k : String) (b : Nat) (es : List (String × Nat)) (h : ¬ a = k) :
    ((k, b) :: es).lookup a = es.lookup a := by
  simp [List.lookup_cons, beq_eq_false_iff_ne.mpr h]

lemma lookup_dictInsert_self (d : List (String × Nat)) (k : String) (v : Nat) :
    (dictInsert d k v).lookup k = some v := by
  induction d with
  | nil => exact lookup_cons_pos k k v [] rfl
  | cons p d ih =>
    obtain ⟨a, b⟩ := p
    by_cases h : a = k
    · rw [show dictInsert ((a, b) :: d) k v = (k, v) :: d by simp [dictInsert, h]]
      exact lookup_cons_pos k k v d rfl
    · rw [show dictInsert ((a, b) :: d) k v = (a, b) :: dictInsert d k v by
        simp [dictInsert, h]]
      rw [lookup_cons_neg k a b _ (fun e => h e.symm)]
      exact ih

lemma lookup_dictInsert_ne (d : List (String × Nat)) (k k2 : String) (v : Nat)
    (h : ¬ k = k2) : (dictInsert d k2 v).lookup k = d.lookup k := by
  induction d with
  | nil =>
    rw [show dictInsert [] k2 v = [(k2, v)] from rfl]
    rw [lookup_cons_neg k k2 v [] h]
  | cons p d ih =>
    obtain ⟨a, b⟩ := p
    by_cases hp : a = k2
    · rw [show dictInsert ((a, b) :: d) k2 v = (k2, v) :: d by simp [dictInsert, hp]]
      rw [lookup_cons_neg k k2 v d h, lookup_cons_neg k a b d (by rw [hp]; exact h)]
    · rw [show dictInsert ((a, b) :: d) k2 v = (a, b) :: dictInsert d k2 v by
        simp [dictInsert, hp]]
      by_cases hk : k = a
      · rw [lookup_cons_pos k a b _ hk, lookup_cons_pos k a b d hk]
      · rw [lookup_cons_neg k a b _ hk, lookup_cons_neg k a b d hk, ih]

lemma extract_append_singleton (row : List (Option String)) (c : Option String) :
    extract_indicator_columns (row ++ [c]) =
      match cellKey c with
      | some k => dictInsert (extract_indicator_columns row) k row.length
      | none => extract_indicator_columns row := by
  unfold extract_indicator_columns
  rw [List.enum_append, List.foldl_append]
  rfl

lemma keyPositions_append_singleton (row : List (Option String)) (c : Option String)
    (k : String) :
    keyPositions (row ++ [c]) k =
      keyPositions row k ++ (if cellKey c = some k then [row.length] else []) := by
  unfold keyPositions
  rw [List.enum_append, List.filterMap_append]
  congr 1
  by_cases hc : cellKey c = some k
  · simp [List.filterMap_cons, hc, List.enumFrom]
  · simp [List.filterMap_cons, hc, List.enumFrom]

lemma lookup_extract (row : List (Option String)) (k : String) :
    (extract_indicator_columns row).lookup k = (keyPositions row k).getLast? := by
  induction row using List.reverseRecOn with
  | nil => rfl
  | append_singleton l a ih =>
    rw [extract_append_singleton, keyPositions_append_singleton]
    cases hc : cellKey a with
    | none =>
      rw [if_neg (by simp [hc])]
      simpa using ih
    | some k2 =>
      by_cases hk : k = k2
      · subst hk
        rw [if_pos rfl, lookup_dictInsert_self, List.getLast?_concat]
      · rw [if_neg (by simp [hc, Ne.symm hk]), lookup_dictInsert_ne _ _ _ _ hk]
        simpa using ih

lemma matchIndicator_iff (t : String) :
    matchIndicator t = true ↔
      ∃ ds : List Char, ds ≠ [] ∧ ds.all Char.isDigit = true ∧ t.data = 'I' :: ds := by
  unfold matchIndicator
  cases h : t.data with
  | nil => simp
  | cons c ds =>
    constructor
    · intro hl
      simp only [Bool.and_eq_true, beq_iff_eq, Bool.not_eq_true'] at hl
      obtain ⟨⟨hc, hne⟩, hall⟩ := hl
      refine ⟨ds, ?_, hall, by rw [hc]⟩
      intro hds
      subst hds
      simp at hne
    · rintro ⟨ds2, hne, hall, heq⟩
      injection heq with hc hds
      subst hc
      subst hds
      have hie : ds.isEmpty = false := by
        cases ds with
        | nil => exact absurd rfl hne
        | cons x xs => rfl
      simp [hie, hall]

lemma cellKey_some_iff (s k : String) :
    cellKey (some s) = some k ↔
      (k = pyStrip s ∧
        ∃ ds : List Char, ds ≠ [] ∧ ds.all Char.isDigit = true ∧ k.data = 'I' :: ds) := by
  unfold cellKey
  rw [Option.some_bind]
  by_cases hm : matchIndicator (pyStrip s) = true
  · rw [if_pos hm]
    constructor
    · intro he
      injection he with he2
      subst he2
      exact ⟨rfl, (matchIndicator_iff _).mp hm⟩
    · rintro ⟨rfl, -⟩
      rfl
  · rw [if_neg hm]
    constructor
    · intro he
      simp at he
    · rintro ⟨rfl, ds, hne, hall, hd⟩
      exact absurd ((matchIndicator_iff _).mpr ⟨ds, hne, hall, hd⟩) hm

/-! ### Role-resolution lemmas for the formula sampler -/

lemma roleField_applyRole (acc : RoleCols) (c : String) (r : Role) :
    roleField (applyRole acc c) r = if roleOf c = some r then some c else roleField acc r := by
  cases hr : roleOf c with
  | none => simp [applyRole, hr]
  | some ro => cases ro <;> cases r <;> simp [applyRole, hr, roleField]

lemma findRoleCols_last (r : Role) (cols : List String) :
    roleField (findRoleCols cols) r = (cols.filter (fun c => roleOf c == some r)).getLast? := by
  induction cols using List.reverseRecOn with
  | nil => cases r <;> rfl
  | append_singleton l a ih =>
    unfold findRoleCols at ih ⊢
    rw [List.foldl_append, List.foldl_cons, List.foldl_nil, roleField_applyRole,
      List.filter_append]
    by_cases h : roleOf a = some r
    · rw [if_pos h]
      have hf : List.filter (fun c => roleOf c == some r) [a] = [a] := by
        simp [List.filter, h]
      rw [hf, List.getLast?_concat]
    · rw [if_neg h]
      have hf : List.filter (fun c => roleOf c == some r) [a] = [] := by
        simp [List.filter, beq_eq_false_iff_ne.mpr h]
      rw [hf, List.append_nil, ih]

/-! ### Sampler lemmas -/

lemma sampleRowMatches_iff (df : QTable) (cc ec rc dc fc : String) (idx : Nat) :
    sampleRowMatches df cc ec rc dc fc idx = true ↔
      ∃ K E RPI KRI A : ℚ,
        getCell df idx cc = some K ∧ getCell df idx ec = some E ∧
        getCell df idx rc = some RPI ∧ getCell df idx dc = some KRI ∧
        getCell df idx fc = some A ∧
        |(K + E) * RPI * KRI - A| / max A (1 / 100) < 1 / 1000 := by
  unfold sampleRowMatches
  cases h1 : getCell df idx cc <;> cases h2 : getCell df idx ec <;>
    cases h3 : getCell df idx rc <;> cases h4 : getCell df idx dc <;>
    cases h5 : getCell df idx fc <;>
    simp [decide_eq_true_eq]

lemma countLoop (p : Nat → Bool) (l : List Nat) :
    ∀ m : Nat, l.foldl (fun m idx => if p idx then m + 1 else m) m = m + l.countP p := by
  induction l with
  | nil => intro m; simp
  | cons x xs ih =>
    intro m
    rw [List.foldl_cons, List.countP_cons, ih]
    by_cases h : p x = true
    · rw [if_pos h, if_pos h]
      omega
    · rw [if_neg h, if_neg h]
      omega

lemma countMatches_eq_countP (df : QTable) (cc ec rc dc fc : String) (ss : Nat) :
    countMatches df cc ec rc dc fc ss =
      (List.range ss).countP (sampleRowMatches df cc ec rc dc fc) := by
  unfold countMatches
  rw [countLoop, Nat.zero_add]

lemma threshold_iff (ss m : Nat) : ((ss : ℚ) * 0.8 ≤ (m : ℚ)) ↔ 4 * ss ≤ 5 * m := by
  rw [show (0.8 : ℚ) = 4 / 5 by norm_num, ← mul_div_assoc,
    div_le_iff₀ (by norm_num : (0 : ℚ) < 5)]
  constructor <;> intro h
  · have h2 : ((4 * ss : ℕ) : ℚ) ≤ ((5 * m : ℕ) : ℚ) := by push_cast; linarith
    exact_mod_cast h2
  · have h2 : ((4 * ss : ℕ) : ℚ) ≤ ((5 * m : ℕ) : ℚ) := by exact_mod_cast h
    push_cast at h2
    linarith

lemma vfs_resolved (df : QTable) (v : Validation) (cc ec rc dc fc : String)
    (h : findRoleCols df.cols = ⟨some cc, some ec, some rc, some dc, some fc⟩) :
    validate_formula_samples df v =
      if (((min 5 df.rows.length : ℕ) : ℚ) * 0.8 ≤
            ((countMatches df cc ec rc dc fc (min 5 df.rows.length) : ℕ) : ℚ)) then
        { v with formula_valid := true }
      else
        { v with warnings := v.warnings ++ ["Формула не валідується"] } := by
  unfold validate_formula_samples
  rw [h]

lemma vfs_preserves (df : QTable) (v : Validation) :
    (validate_formula_samples df v).total_institutions = v.total_institutions
    ∧ (validate_formula_samples df v).total_dovidnyky = v.total_dovidnyky
    ∧ (validate_formula_samples df v).indicators_found = v.indicators_found
    ∧ (validate_formula_samples df v).indicators_missing = v.indicators_missing
    ∧ (validate_formula_samples df v).ki_sum_valid = v.ki_sum_valid
    ∧ (validate_formula_samples df v).errors = v.errors := by
  unfold validate_formula_samples
  split
  · simp [apply_ite Validation.total_institutions, apply_ite Validation.total_dovidnyky,
      apply_ite Validation.indicators_found, apply_ite Validation.indicators_missing,
      apply_ite Validation.ki_sum_valid, apply_ite Validation.errors]
  · simp

/-! ### Order lemmas for the modelled `sorted` -/

lemma charListLe_total : ∀ as bs : List Char, charListLe as bs = true ∨ charListLe bs as = true := by
  intro as
  induction as with
  | nil => intro bs; exact Or.inl rfl
  | cons a as ih =>
    intro bs
    cases bs with
    | nil => exact Or.inr rfl
    | cons b bs =>
      rcases Nat.lt_trichotomy a.toNat b.toNat with h | h | h
      · left
        simp only [charListLe, Bool.or_eq_true, decide_eq_true_eq]
        exact Or.inl h
      · rcases ih bs with h2 | h2
        · left
          simp only [charListLe, Bool.or_eq_true, Bool.and_eq_true, decide_eq_true_eq]
          exact Or.inr ⟨h, h2⟩
        · right
          simp only [charListLe, Bool.or_eq_true, Bool.and_eq_true, decide_eq_true_eq]
          exact Or.inr ⟨h.symm, h2⟩
      · right
        simp only [charListLe, Bool.or_eq_true, decide_eq_true_eq]
        exact Or.inl h

lemma charListLe_trans : ∀ as bs cs : List Char,
    charListLe as bs = true → charListLe bs cs = true → charListLe as cs = true := by
  intro as
  induction as with
  | nil => intro bs cs _ _; rfl
  | cons a as ih =>
    intro bs cs h1 h2
    cases bs with
    | nil => simp [charListLe] at h1
    | cons b bs =>
      cases cs with
      | nil => simp [charListLe] at h2
      | cons c cs =>
        simp only [charListLe, Bool.or_eq_true, Bool.and_eq_true, decide_eq_true_eq] at h1 h2 ⊢
        rcases h1 with h1 | ⟨h1e, h1r⟩ <;> rcases h2 with h2 | ⟨h2e, h2r⟩
        · exact Or.inl (by omega)
        · exact Or.inl (by omega)
        · exact Or.inl (by omega)
        · exact Or.inr ⟨by omega, ih bs cs h1r h2r⟩

instance : IsTotal String strLeR :=
  ⟨fun a b => charListLe_total a.data b.data⟩

instance : IsTrans String strLeR :=
  ⟨fun a b c => charListLe_trans a.data b.data c.data⟩

lemma mem_sortStrings (l : List String) (x : String) : x ∈ sortStrings l ↔ x ∈ l :=
  (List.perm_insertionSort strLeR l).mem_iff

lemma sorted_sortStrings (l : List String) : (sortStrings l).Sorted strLeR :=
  List.sorted_insertionSort strLeR l

lemma nodup_sortStrings (l : List String) (h : l.Nodup) : (sortStrings l).Nodup :=
  (List.perm_insertionSort strLeR l).nodup_iff.mpr h

/-! ### Field lemmas for `validate_methodology` -/

lemma vm_found (ic : List (String × Nat)) (d : QTable) (r : RTable) :
    (validate_methodology ic d r).indicators_found = sortStrings ((ic.map (·.1)).dedup) := by
  simp only [validate_methodology]
  rw [(vfs_preserves _ _).2.2.1, apply_ite Validation.indicators_found]
  simp

lemma vm_missing (ic : List (String × Nat)) (d : QTable) (r : RTable) :
    (validate_methodology ic d r).indicators_missing =
      sortStrings (indicatorIds.filter (fun k => !((ic.map (·.1)).dedup.contains k))) := by
  simp only [validate_methodology]
  rw [(vfs_preserves _ _).2.2.2.1, apply_ite Validation.indicators_missing]
  simp

lemma ki_sum_close : |kiSum - TOTAL_KI| < 1 / 100 := by
  norm_num [kiSum, TOTAL_KI, INDICATORS_KI]

lemma vm_ki_errors (ic : List (String × Nat)) (d : QTable) (r : RTable) :
    (validate_methodology ic d r).ki_sum_valid = true
      ∧ (validate_methodology ic d r).errors = [] := by
  simp only [validate_methodology]
  constructor
  · rw [(vfs_preserves _ _).2.2.2.2.1, if_pos ki_sum_close]
  · rw [(vfs_preserves _ _).2.2.2.2.2, if_pos ki_sum_close]

/-! ### Consolidator and exporter lemmas -/

lemma consolidate_ok_state (st : ParserState) (ds : List String) (st2 : ParserState)
    (c : Consolidated) (h : consolidate_data st ds = .ok (st2, c)) :
    st2 = { st with consolidated_data := some c } := by
  unfold consolidate_data at h
  cases hp : parse_results_sheet st.sheets ds with
  | error e =>
    rw [hp] at h
    exact absurd h (by simp)
  | ok results =>
    rw [hp] at h
    simp only [Except.ok.injEq, Prod.mk.injEq] at h
    obtain ⟨h1, h2⟩ := h
    subst h1
    subst h2
    rfl

lemma mem_optTableFile {x nm : String} {o : Option RTable} (h : x ∈ optTableFile o nm) :
    x = nm := by
  cases o with
  | none => simp [optTableFile] at h
  | some t =>
    simp only [optTableFile] at h
    split at h
    · simpa using h
    · simp at h

/-! ### Claim theorems -/

/-- C1: for every header-region table, the Header Resolver's map binds an
identifier to the 0-based position of the last cell of the first row
whose stripped text matches exactly the pattern `I` + digits (empty,
non-matching, or suffixed cells contribute nothing; later occurrences
silently overwrite earlier ones); a cell contributes key `k` exactly when
its stripped text is `k` and `k` is the Latin letter `I` followed by one
or more decimal digits and nothing else; on the row
`["I1", "foo", "I37", "I1*", ""]` the resulting map is exactly
`{I1 ↦ 0, I37 ↦ 2}`. -/
theorem c1_header_resolver :
    (∀ (row : List (Option String)) (k : String),
        (extract_indicator_columns row).lookup k = (keyPositions row k).getLast?)
    ∧ (∀ s k : String,
        cellKey (some s) = some k ↔
          (k = pyStrip s ∧
            ∃ ds : List Char, ds ≠ [] ∧ ds.all Char.isDigit = true ∧ k.data = 'I' :: ds))
    ∧ extract_indicator_columns c1row = [("I1", 0), ("I37", 2)] :=
  ⟨lookup_extract, cellKey_some_iff, by decide⟩

/-- C3 counterexample: with two columns both qualifying for the
classification role, the scan keeps the second (last) one, not the first,
refuting the claim that the first qualifying column wins. -/
theorem c3_first_wins_counterexample :
    (findRoleCols ["класифікаційна оцінка 1", "класифікаційна оцінка 2"]).classification_col
        = some "класифікаційна оцінка 2"
      ∧ ¬((findRoleCols
            ["класифікаційна оцінка 1", "класифікаційна оцінка 2"]).classification_col
          = some "класифікаційна оцінка 1") :=
  ⟨by decide, by decide⟩

/-- C3 (amended): columns are scanned in table order and each column is
assigned to the first role, in the fixed source order classification,
expert, regional, destruction, final, whose substring predicate its
lower-cased label satisfies (all substrings required, except destruction
which accepts either of its two variants); when several columns are
assigned to the same role, the LAST one in column order is the one kept. -/
theorem c3_role_resolution_amended :
    (∀ cols : List String,
        (findRoleCols cols).classification_col
            = (cols.filter (fun c => roleOf c == some Role.classification)).getLast?
          ∧ (findRoleCols cols).expert_col
            = (cols.filter (fun c => roleOf c == some Role.expert)).getLast?
          ∧ (findRoleCols cols).regional_col
            = (cols.filter (fun c => roleOf c == some Role.regional)).getLast?
          ∧ (findRoleCols cols).destruction_col
            = (cols.filter (fun c => roleOf c == some Role.destruction)).getLast?
          ∧ (findRoleCols cols).final_col
            = (cols.filter (fun c => roleOf c == some Role.final)).getLast?)
    ∧ (∀ c : String, roleOf c = some Role.classification ↔
        (hasTok (ukrLower c) "класифікаційна" = true ∧ hasTok (ukrLower c) "оцінка" = true))
    ∧ (∀ c : String, roleOf c = some Role.expert ↔
        (¬(hasTok (ukrLower c) "класифікаційна" = true ∧ hasTok (ukrLower c) "оцінка" = true)
          ∧ hasTok (ukrLower c) "експертна" = true ∧ hasTok (ukrLower c) "оцінка" = true))
    ∧ (∀ c : String, roleOf c = some Role.destruction ↔
        (¬(hasTok (ukrLower c) "класифікаційна" = true ∧ hasTok (ukrLower c) "оцінка" = true)
          ∧ ¬(hasTok (ukrLower c) "експертна" = true ∧ hasTok (ukrLower c) "оцінка" = true)
          ∧ ¬(hasTok (ukrLower c) "регіональний" = true ∧ hasTok (ukrLower c) "коєфіц" = true)
          ∧ (hasTok (ukrLower c) "руйнувань" = true ∨ hasTok (ukrLower c) "руйнування" = true))) := by
  refine ⟨fun cols => ⟨findRoleCols_last Role.classification cols,
    findRoleCols_last Role.expert cols, findRoleCols_last Role.regional cols,
    findRoleCols_last Role.destruction cols, findRoleCols_last Role.final cols⟩, ?_, ?_, ?_⟩
  · intro c
    unfold roleOf
    by_cases h1 : (hasTok (ukrLower c) "класифікаційна" && hasTok (ukrLower c) "оцінка") = true
    · rw [if_pos h1]
      rw [Bool.and_eq_true] at h1
      simp [h1.1, h1.2]
    · rw [if_neg h1]
      rw [Bool.and_eq_true] at h1
      constructor
      · intro hl
        exfalso
        split at hl
        · simp at hl
        · split at hl
          · simp at hl
          · split at hl
            · simp at hl
            · simp at hl
      · intro hr
        exact absurd hr h1
  · intro c
    unfold roleOf
    by_cases h1 : (hasTok (ukrLower c) "класифікаційна" && hasTok (ukrLower c) "оцінка") = true
    · rw [if_pos h1]
      rw [Bool.and_eq_true] at h1
      simp [h1]
    · rw [if_neg h1]
      by_cases h2 : (hasTok (ukrLower c) "експертна" && hasTok (ukrLower c) "оцінка") = true
      · rw [if_pos h2]
        rw [Bool.and_eq_true] at h1 h2
        have hA : hasTok (ukrLower c) "класифікаційна" = false := by
          cases hc2 : hasTok (ukrLower c) "класифікаційна" with
          | false => rfl
          | true => exact absurd ⟨hc2, h2.2⟩ h1
        simp [hA, h2.1, h2.2]
      · rw [if_neg h2]
        rw [Bool.and_eq_true] at h1 h2
        constructor
        · intro hl
          exfalso
          split at hl
          · simp at hl
          · split at hl
            · simp at hl
            · simp at hl
        · rintro ⟨-, hA, hB⟩
          exact (h2 ⟨hA, hB⟩).elim
  · intro c
    unfold roleOf
    by_cases h1 : (hasTok (ukrLower c) "класифікаційна" && hasTok (ukrLower c) "оцінка") = true
    · rw [if_pos h1]
      rw [Bool.and_eq_true] at h1
      simp [h1]
    · rw [if_neg h1]
      by_cases h2 : (hasTok (ukrLower c) "експертна" && hasTok (ukrLower c) "оцінка") = true
      · rw [if_pos h2]
        rw [Bool.and_eq_true] at h1 h2
        simp [h1, h2]
      · rw [if_neg h2]
        by_cases h3 : (hasTok (ukrLower c) "регіональний" && hasTok (ukrLower c) "коєфіц") = true
        · rw [if_pos h3]
          rw [Bool.and_eq_true] at h1 h2 h3
          simp [h1, h2, h3]
        · rw [if_neg h3]
          by_cases h4 : (hasTok (ukrLower c) "руйнувань" || hasTok (ukrLower c) "руйнування") = true
          · rw [if_pos h4]
            rw [Bool.or_eq_true] at h4
            rw [Bool.and_eq_true] at h1 h2 h3
            simp [h1, h2, h3, h4]
          · rw [if_neg h4]
            rw [Bool.or_eq_true] at h4
            rw [Bool.and_eq_true] at h1 h2 h3
            constructor
            · intro hl
              exfalso
              split at hl
              · simp at hl
              · simp at hl
            · rintro ⟨-, -, -, hd⟩
              exact (h4 hd).elim

/-- C2: when all five role columns resolve, the sampler examines the first
`min(5, rowCount)` rows; a row matches exactly when all five values
coerce and `|(K+E)*RPI*KRI − A| / max(A, 0.01) < 0.001`; `formula_valid`
is set iff `matches ≥ 0.8 × min(5, rowCount)` (over exact rationals,
`5·matches ≥ 4·sampleSize`), with the original sample size as the
denominator so coercion-failed rows still count against it; concretely,
5 exact matches of 5 yield `formula_valid = true` and 3 matches of a
5-row sample (one row off-tolerance, one row failing coercion) yield
`formula_valid = false`. -/
theorem c2_formula_sampler :
    (∀ (df : QTable) (v : Validation) (cc ec rc dc fc : String),
        findRoleCols df.cols = ⟨some cc, some ec, some rc, some dc, some fc⟩ →
        v.formula_valid = false →
        (((validate_formula_samples df v).formula_valid = true) ↔
          4 * min 5 df.rows.length ≤
            5 * (List.range (min 5 df.rows.length)).countP
                  (sampleRowMatches df cc ec rc dc fc)))
    ∧ (∀ (df : QTable) (cc ec rc dc fc : String) (idx : Nat),
        sampleRowMatches df cc ec rc dc fc idx = true ↔
          ∃ K E RPI KRI A : ℚ,
            getCell df idx cc = some K ∧ getCell df idx ec = some E ∧
            getCell df idx rc = some RPI ∧ getCell df idx dc = some KRI ∧
            getCell df idx fc = some A ∧
            |(K + E) * RPI * KRI - A| / max A (1 / 100) < 1 / 1000)
    ∧ (validate_formula_samples exA freshValidation).formula_valid = true
    ∧ countMatches exA ccL ecL rcL dcL fcL 5 = 5
    ∧ (validate_formula_samples exB freshValidation).formula_valid = false
    ∧ countMatches exB ccL ecL rcL dcL fcL 5 = 3 := by
  have hroleA : findRoleCols exA.cols = ⟨some ccL, some ecL, some rcL, some dcL, some fcL⟩ := by
    decide
  have hroleB : findRoleCols exB.cols = ⟨some ccL, some ecL, some rcL, some dcL, some fcL⟩ := by
    decide
  have hA0 : sampleRowMatches exA ccL ecL rcL dcL fcL 0 = true :=
    (sampleRowMatches_iff exA ccL ecL rcL dcL fcL 0).mpr
      ⟨10, 5, 2, 1, 30, rfl, rfl, rfl, rfl, rfl, by norm_num⟩
  have hA1 : sampleRowMatches exA ccL ecL rcL dcL fcL 1 = true :=
    (sampleRowMatches_iff exA ccL ecL rcL dcL fcL 1).mpr
      ⟨7, 3, 1, 1, 10, rfl, rfl, rfl, rfl, rfl, by norm_num⟩
  have hA2 : sampleRowMatches exA ccL ecL rcL dcL fcL 2 = true :=
    (sampleRowMatches_iff exA ccL ecL rcL dcL fcL 2).mpr
      ⟨20, 20, 2, 1, 80, rfl, rfl, rfl, rfl, rfl, by norm_num⟩
  have hA3 : sampleRowMatches exA ccL ecL rcL dcL fcL 3 = true :=
    (sampleRowMatches_iff exA ccL ecL rcL dcL fcL 3).mpr
      ⟨4, 4, 1, 1, 8, rfl, rfl, rfl, rfl, rfl, by norm_num⟩
  have hA4 : sampleRowMatches exA ccL ecL rcL dcL fcL 4 = true :=
    (sampleRowMatches_iff exA ccL ecL rcL dcL fcL 4).mpr
      ⟨9, 1, 2, 1, 20, rfl, rfl, rfl, rfl, rfl, by norm_num⟩
  have hB3 : sampleRowMatches exB ccL ecL rcL dcL fcL 3 = false := by
    cases hb : sampleRowMatches exB ccL ecL rcL dcL fcL 3 with
    | false => rfl
    | true =>
      exfalso
      obtain ⟨K, E, RPI, KRI, A, hK, hE, hR, hD, hF, hlt⟩ :=
        (sampleRowMatches_iff exB ccL ecL rcL dcL fcL 3).mp hb
      rw [show getCell exB 3 ccL = some (4 : ℚ) from rfl] at hK
      rw [show getCell exB 3 ecL = some (4 : ℚ) from rfl] at hE
      rw [show getCell exB 3 rcL = some (1 : ℚ) from rfl] at hR
      rw [show getCell exB 3 dcL = some (1 : ℚ) from rfl] at hD
      rw [show getCell exB 3 fcL = some (31 : ℚ) from rfl] at hF
      injection hK with hK2
      injection hE with hE2
      injection hR with hR2
      injection hD with hD2
      injection hF with hF2
      subst hK2
      subst hE2
      subst hR2
      subst hD2
      subst hF2
      norm_num at hlt
  have hB4 : sampleRowMatches exB ccL ecL rcL dcL fcL 4 = false := rfl
  have hcA : countMatches exA ccL ecL rcL dcL fcL 5 = 5 := by
    rw [countMatches_eq_countP, show List.range 5 = [0, 1, 2, 3, 4] from rfl]
    simp [List.countP_cons, hA0, hA1, hA2, hA3, hA4]
  have hB0 : sampleRowMatches exB ccL ecL rcL dcL fcL 0 = true :=
    (sampleRowMatches_iff exB ccL ecL rcL dcL fcL 0).mpr
      ⟨10, 5, 2, 1, 30, rfl, rfl, rfl, rfl, rfl, by norm_num⟩
  have hB1 : sampleRowMatches exB ccL ecL rcL dcL fcL 1 = true :=
    (sampleRowMatches_iff exB ccL ecL rcL dcL fcL 1).mpr
      ⟨7, 3, 1, 1, 10, rfl, rfl, rfl, rfl, rfl, by norm_num⟩
  have hB2 : sampleRowMatches exB ccL ecL rcL dcL fcL 2 = true :=
    (sampleRowMatches_iff exB ccL ecL rcL dcL fcL 2).mpr
      ⟨20, 20, 2, 1, 80, rfl, rfl, rfl, rfl, rfl, by norm_num⟩
  have hcB : countMatches exB ccL ecL rcL dcL fcL 5 = 3 := by
    rw [countMatches_eq_countP, show List.range 5 = [0, 1, 2, 3, 4] from rfl]
    simp [List.countP_cons, hB0, hB1, hB2, hB3, hB4]
  refine ⟨?_, sampleRowMatches_iff, ?_, hcA, ?_, hcB⟩
  · intro df v cc ec rc dc fc h hv
    rw [vfs_resolved df v cc ec rc dc fc h]
    by_cases hc : (((min 5 df.rows.length : ℕ) : ℚ) * 0.8 ≤
        ((countMatches df cc ec rc dc fc (min 5 df.rows.length) : ℕ) : ℚ))
    · rw [if_pos hc]
      have hth := (threshold_iff _ _).mp hc
      rw [countMatches_eq_countP] at hth
      simp only [show ({v with formula_valid := true} : Validation).formula_valid = true
        from rfl]
      exact ⟨fun _ => hth, fun _ => trivial⟩
    · rw [if_neg hc]
      have hlhs : ({v with warnings := v.warnings ++ ["Формула не валідується"]} :
          Validation).formula_valid = v.formula_valid := rfl
      rw [hlhs, hv]
      constructor
      · intro hfalse
        exact absurd hfalse (by simp)
      · intro hr
        exfalso
        apply hc
        rw [threshold_iff, countMatches_eq_countP]
        exact hr
  · rw [vfs_resolved exA freshValidation ccL ecL rcL dcL fcL hroleA]
    rw [show min 5 exA.rows.length = 5 from rfl, hcA]
    rw [if_pos (by norm_num)]
  · rw [vfs_resolved exB freshValidation ccL ecL rcL dcL fcL hroleB]
    rw [show min 5 exB.rows.length = 5 from rfl, hcB]
    rw [if_neg (by norm_num)]
    rfl

/-- Witness for C2: the sampler's verdict criterion instantiated at the
concrete five-row table on which all roles resolve. -/
theorem c2_formula_sampler_witness :
    (validate_formula_samples exA freshValidation).formula_valid = true ↔
      4 * min 5 exA.rows.length ≤
        5 * (List.range (min 5 exA.rows.length)).countP
              (sampleRowMatches exA ccL ecL rcL dcL fcL) :=
  c2_formula_sampler.1 exA freshValidation ccL ecL rcL dcL fcL (by decide) rfl

/-- C4 counterexample: on the map holding every registry identifier
except `I5` plus the non-indicator key `I40`, `indicators_missing` is
exactly `["I5"]` but `indicators_found` has 37 entries (the key `I40` is
included), not the 36 the claim asserts. -/
theorem c4_found_count_counterexample :
    (validate_methodology c4map qEmpty rEmpty).indicators_missing = ["I5"]
    ∧ (validate_methodology c4map qEmpty rEmpty).indicators_found.length = 37
    ∧ ¬((validate_methodology c4map qEmpty rEmpty).indicators_found.length = 36) := by
  refine ⟨?_, ?_, ?_⟩
  · rw [vm_missing]
    decide
  · rw [vm_found]
    decide
  · rw [vm_found]
    decide

/-- C4 (amended): `indicators_missing` is the sorted duplicate-free list
of the 37 registry identifiers not present among the map's keys, and
`indicators_found` is the sorted duplicate-free list of ALL the map's
keys (non-registry keys such as `I40` included); on a map holding every
real indicator except `I5` plus `I40`, `indicators_missing = ["I5"]` and
`indicators_found` has 37 entries. -/
theorem c4_schema_validator_amended :
    (∀ (ic : List (String × Nat)) (d : QTable) (r : RTable) (k : String),
        k ∈ (validate_methodology ic d r).indicators_found ↔ k ∈ ic.map (·.1))
    ∧ (∀ (ic : List (String × Nat)) (d : QTable) (r : RTable) (k : String),
        k ∈ (validate_methodology ic d r).indicators_missing ↔
          (k ∈ indicatorIds ∧ ¬ k ∈ ic.map (·.1)))
    ∧ (∀ (ic : List (String × Nat)) (d : QTable) (r : RTable),
        (validate_methodology ic d r).indicators_found.Sorted strLeR
          ∧ (validate_methodology ic d r).indicators_missing.Sorted strLeR
          ∧ (validate_methodology ic d r).indicators_found.Nodup
          ∧ (validate_methodology ic d r).indicators_missing.Nodup)
    ∧ (validate_methodology c4map qEmpty rEmpty).indicators_missing = ["I5"]
    ∧ (validate_methodology c4map qEmpty rEmpty).indicators_found.length = 37 := by
  refine ⟨?_, ?_, ?_, ?_, ?_⟩
  · intro ic d r k
    rw [vm_found, mem_sortStrings, List.mem_dedup]
  · intro ic d r k
    rw [vm_missing, mem_sortStrings, List.mem_filter]
    simp [List.mem_dedup]
  · intro ic d r
    refine ⟨?_, ?_, ?_, ?_⟩
    · rw [vm_found]
      exact sorted_sortStrings _
    · rw [vm_missing]
      exact sorted_sortStrings _
    · rw [vm_found]
      exact nodup_sortStrings _ (List.nodup_dedup _)
    · rw [vm_missing]
      exact nodup_sortStrings _ ((by decide : indicatorIds.Nodup).filter _)
  · rw [vm_missing]
    decide
  · rw [vm_found]
    decide

/-- C5: for every results table carrying the `Напрям` column at position
`j`, `parse_results_sheet` succeeds and returns exactly the rows whose
category value is a member of the supplied directions (a sublist of the
source rows, so original order is kept, with length equal to the count
of such rows); when the column is absent the full unfiltered table is
returned and the call still succeeds. -/
theorem c5_category_filtering :
    (∀ (sheets : List (String × RTable)) (ds : List String) (df : RTable) (j : Nat),
        sheets.lookup "Результати" = some df →
        df.cols.findIdx? (· == "Напрям") = some j →
        parse_results_sheet sheets ds = .ok ⟨df.cols, df.rows.filter (keepRow j ds)⟩
          ∧ (df.rows.filter (keepRow j ds)).Sublist df.rows
          ∧ (df.rows.filter (keepRow j ds)).length = df.rows.countP (keepRow j ds)
          ∧ (∀ r, r ∈ df.rows.filter (keepRow j ds) ↔ (r ∈ df.rows ∧ keepRow j ds r = true)))
    ∧ (∀ (sheets : List (String × RTable)) (ds : List String) (df : RTable),
        sheets.lookup "Результати" = some df →
        df.cols.findIdx? (· == "Напрям") = none →
        parse_results_sheet sheets ds = .ok df) := by
  constructor
  · intro sheets ds df j h hj
    refine ⟨?_, List.filter_sublist _, (List.countP_eq_length_filter _ _).symm,
      fun r => List.mem_filter⟩
    unfold parse_results_sheet filterByDirections
    simp [h, hj]
  · intro sheets ds df h hj
    unfold parse_results_sheet filterByDirections
    simp [h, hj]

/-- Witness for C5: the spec's example, a results table with rows in the
directions Суспільний and Біомедичний filtered by {Суспільний}. -/
theorem c5_category_filtering_witness :
    parse_results_sheet c5sheets ["Суспільний"] =
        .ok ⟨c5table.cols, c5table.rows.filter (keepRow 1 ["Суспільний"])⟩
      ∧ (c5table.rows.filter (keepRow 1 ["Суспільний"])).length
          = c5table.rows.countP (keepRow 1 ["Суспільний"]) := by
  have h := c5_category_filtering.1 c5sheets ["Суспільний"] c5table 1 rfl rfl
  exact ⟨h.1, h.2.2.1⟩

/-- C6 (code bug): a successful `consolidate_data` run only loads and
filters the four sheets and stores the bundle; the stored validation
report is left exactly as it was — the Header Resolver, Schema Validator
and Formula Sampler are never invoked, contradicting the spec and the
repository's own test `test_validation_results`. -/
theorem c6_consolidate_skips_validation :
    ∀ (st : ParserState) (ds : List String) (st2 : ParserState) (c : Consolidated),
      consolidate_data st ds = .ok (st2, c) →
      st2.validation_results = st.validation_results
        ∧ st2.sheets = st.sheets
        ∧ st2.consolidated_data = some c := by
  intro st ds st2 c h
  rw [consolidate_ok_state st ds st2 c h]
  exact ⟨rfl, rfl, rfl⟩

/-- Witness for C6: a concrete consolidation run over a workbook holding
the sheets Довідники and Результати leaves the stored validation report
untouched. -/
theorem c6_consolidate_skips_validation_witness :
    c6after.validation_results = stLoaded.validation_results
      ∧ c6after.sheets = stLoaded.sheets
      ∧ c6after.consolidated_data = some c6bundle :=
  c6_consolidate_skips_validation stLoaded ["Суспільний"] c6after c6bundle rfl

/-- C7: the registry holds exactly 37 weights, each in (0, 4], their sum
is within 0.01 of `TOTAL_KI = 54.0`, and consequently
`validate_methodology` always reports `ki_sum_valid = true` and appends
no weight-sum error (its error list stays empty). -/
theorem c7_registry_weights :
    INDICATORS_KI.length = 37
    ∧ (∀ p ∈ INDICATORS_KI, 0 < p.2 ∧ p.2 ≤ 4)
    ∧ |kiSum - TOTAL_KI| < 1 / 100
    ∧ (∀ (ic : List (String × Nat)) (d : QTable) (r : RTable),
        (validate_methodology ic d r).ki_sum_valid = true
          ∧ (validate_methodology ic d r).errors = []) := by
  refine ⟨by decide, ?_, ki_sum_close, fun ic d r => vm_ki_errors ic d r⟩
  intro p hp
  fin_cases hp <;> exact ⟨by norm_num, by norm_num⟩

/-- Witness for C7: the membership hypothesis discharged at the first
registry entry. -/
theorem c7_registry_weights_witness :
    ("I1", (1.0 : ℚ)) ∈ INDICATORS_KI ∧ (0 < (1.0 : ℚ) ∧ (1.0 : ℚ) ≤ 4) := by
  have hm : ("I1", (1.0 : ℚ)) ∈ INDICATORS_KI := by
    unfold INDICATORS_KI
    exact List.mem_cons_self _ _
  exact ⟨hm, c7_registry_weights.2.1 _ hm⟩

/-- C8: the five blocks partition the 37 registry identifiers (their
concatenation, in order, is exactly the registry's identifier list and
is duplicate-free), the per-block weight subtotals are 5.5, 13.5, 7.8,
13.7 and 13.5 within 0.01 each, and the block subtotals sum to 54. -/
theorem c8_blocks :
    (INDICATOR_BLOCKS.map (·.2)).flatten = indicatorIds
    ∧ ((INDICATOR_BLOCKS.map (·.2)).flatten).Nodup
    ∧ List.Forall₂ (fun ids v => |blockSum ids - v| < 1 / 100)
        (INDICATOR_BLOCKS.map (·.2)) [5.5, 13.5, 7.8, 13.7, 13.5]
    ∧ (INDICATOR_BLOCKS.map (fun b => blockSum b.2)).sum = 54 := by
  have hb1 : blockSum ["I1", "I2", "I3", "I4", "I5", "I6"]
      = (1.0 : ℚ) + ((1.0 : ℚ) + ((1.0 : ℚ) + ((1.0 : ℚ) + ((0.5 : ℚ) + ((1.0 : ℚ) + 0))))) :=
    rfl
  have hb2 : blockSum ["I7", "I8", "I9", "I10", "I11", "I12", "I13", "I14"]
      = (1.0 : ℚ) + ((3.0 : ℚ) + ((2.0 : ℚ) + ((1.0 : ℚ) + ((3.0 : ℚ) + ((2.0 : ℚ)
          + ((1.0 : ℚ) + ((0.5 : ℚ) + 0))))))) :=
    rfl
  have hb3 : blockSum ["I15", "I16", "I17", "I18", "I19", "I20", "I21", "I22"]
      = (1.5 : ℚ) + ((1.2 : ℚ) + ((1.0 : ℚ) + ((1.0 : ℚ) + ((1.5 : ℚ) + ((0.75 : ℚ)
          + ((0.35 : ℚ) + ((0.5 : ℚ) + 0))))))) :=
    rfl
  have hb4 : blockSum ["I23", "I24", "I25", "I26", "I27", "I28", "I29", "I30", "I31"]
      = (0.2 : ℚ) + ((1.0 : ℚ) + ((1.0 : ℚ) + ((3.0 : ℚ) + ((1.0 : ℚ) + ((1.0 : ℚ)
          + ((4.0 : ℚ) + ((0.5 : ℚ) + ((2.0 : ℚ) + 0)))))))) :=
    rfl
  have hb5 : blockSum ["I32", "I33", "I34", "I35", "I36", "I37"]
      = (4.0 : ℚ) + ((1.0 : ℚ) + ((2.0 : ℚ) + ((0.5 : ℚ) + ((2.0 : ℚ) + ((4.0 : ℚ) + 0))))) :=
    rfl
  refine ⟨by decide, by decide, ?_, ?_⟩
  · rw [show INDICATOR_BLOCKS.map (·.2) =
      [["I1", "I2", "I3", "I4", "I5", "I6"],
       ["I7", "I8", "I9", "I10", "I11", "I12", "I13", "I14"],
       ["I15", "I16", "I17", "I18", "I19", "I20", "I21", "I22"],
       ["I23", "I24", "I25", "I26", "I27", "I28", "I29", "I30", "I31"],
       ["I32", "I33", "I34", "I35", "I36", "I37"]] from rfl]
    refine List.Forall₂.cons ?_ (List.Forall₂.cons ?_ (List.Forall₂.cons ?_
      (List.Forall₂.cons ?_ (List.Forall₂.cons ?_ List.Forall₂.nil))))
    · rw [hb1]
      norm_num
    · rw [hb2]
      norm_num
    · rw [hb3]
      norm_num
    · rw [hb4]
      norm_num
    · rw [hb5]
      norm_num
  · rw [show (INDICATOR_BLOCKS.map (fun b => blockSum b.2)).sum =
      blockSum ["I1", "I2", "I3", "I4", "I5", "I6"]
        + (blockSum ["I7", "I8", "I9", "I10", "I11", "I12", "I13", "I14"]
        + (blockSum ["I15", "I16", "I17", "I18", "I19", "I20", "I21", "I22"]
        + (blockSum ["I23", "I24", "I25", "I26", "I27", "I28", "I29", "I30", "I31"]
        + (blockSum ["I32", "I33", "I34", "I35", "I36", "I37"] + 0)))) from rfl]
    rw [hb1, hb2, hb3, hb4, hb5]
    norm_num

/-- C9 (code bug): a successful `export_to_json` run writes
`methodology.json` and the per-table record files, but never a
`validation.json` — contradicting the spec and the repository's own test
`test_export_to_json`, which asserts that file exists. -/
theorem c9_no_validation_json :
    ∀ (st : ParserState) (files : List String),
      export_to_json st = .ok files →
      "methodology.json" ∈ files ∧ ¬ "validation.json" ∈ files := by
  intro st files h
  unfold export_to_json at h
  cases hc : st.consolidated_data with
  | none =>
    rw [hc] at h
    exact absurd h (by simp)
  | some c =>
    rw [hc] at h
    injection h with h2
    subst h2
    constructor
    · simp
    · intro hm
      simp only [List.mem_append] at hm
      rcases hm with ((((hm | hm) | hm) | hm) | hm) | hm
      · exact absurd hm (by decide)
      · exact absurd (mem_optTableFile hm) (by decide)
      · exact absurd (mem_optTableFile hm) (by decide)
      · exact absurd (mem_optTableFile hm) (by decide)
      · exact absurd (mem_optTableFile hm) (by decide)
      · by_cases hcond : (0 < c.results.rows.length
            && c.results.cols.contains "Напрям") = true
        · rw [if_pos hcond] at hm
          exact absurd hm (by decide)
        · rw [if_neg hcond] at hm
          simp at hm

/-- Witness for C9: a concrete consolidated state whose JSON export
writes methodology, results and direction statistics — and no
validation.json. -/
theorem c9_no_validation_json_witness :
    "methodology.json" ∈ ["methodology.json", "all_results.json", "stats_by_direction.json"]
      ∧ ¬ "validation.json" ∈
          ["methodology.json", "all_results.json", "stats_by_direction.json"] :=
  c9_no_validation_json stConsolidated
    ["methodology.json", "all_results.json", "stats_by_direction.json"] rfl

/-- C10: with no consolidated bundle set, both exporters refuse with the
`ValueError` message and write no file; once the bundle is set — in
particular right after any successful `consolidate_data` run — both
exporters succeed. -/
theorem c10_export_precondition :
    (∀ st : ParserState, st.consolidated_data = none →
        export_to_csv st = .error "Спочатку виконайте консолідацію даних"
          ∧ export_to_json st = .error "Спочатку виконайте консолідацію даних")
    ∧ (∀ (st : ParserState) (c : Consolidated), st.consolidated_data = some c →
        (∃ fs, export_to_csv st = .ok fs) ∧ (∃ fs, export_to_json st = .ok fs))
    ∧ (∀ (st st2 : ParserState) (ds : List String) (c : Consolidated),
        consolidate_data st ds = .ok (st2, c) →
        (∃ fs, export_to_csv st2 = .ok fs) ∧ (∃ fs, export_to_json st2 = .ok fs)) := by
  have hsome : ∀ (st : ParserState) (c : Consolidated), st.consolidated_data = some c →
      (∃ fs, export_to_csv st = .ok fs) ∧ (∃ fs, export_to_json st = .ok fs) := by
    intro st c h
    unfold export_to_csv export_to_json
    rw [h]
    exact ⟨⟨_, rfl⟩, ⟨_, rfl⟩⟩
  refine ⟨?_, hsome, ?_⟩
  · intro st h
    unfold export_to_csv export_to_json
    rw [h]
    exact ⟨rfl, rfl⟩
  · intro st st2 ds c h
    exact hsome st2 c (by rw [consolidate_ok_state st ds st2 c h])

/-- Witness for C10: both exporters refuse on the freshly loaded state
and succeed on the consolidated one. -/
theorem c10_export_precondition_witness :
    (export_to_csv stLoaded = .error "Спочатку виконайте консолідацію даних"
      ∧ export_to_json stLoaded = .error "Спочатку виконайте консолідацію даних")
    ∧ ((∃ fs, export_to_csv stConsolidated = .ok fs)
      ∧ (∃ fs, export_to_json stConsolidated = .ok fs)) :=
  ⟨c10_export_precondition.1 stLoaded rfl,
   c10_export_precondition.2.1 stConsolidated ⟨c5table, none, none, none⟩ rfl⟩

end Atestat
